import Mathlib

/-!
Shallow embedding of the state machine engine of CppStateMachineFramework
(src/StateMachine.cpp, inc/CppStateMachineFramework/StateMachine.hpp,
src/Event.cpp), together with theorems checking the natural-language
specification against it.

Modelling conventions:
* `QString` becomes `String`; `std::unordered_map` becomes an association
  list `List (String × _)` looked up with `List.lookup`; `QSet<QString>`
  becomes a duplicate-free `List String` grown with `insertReached`;
  `std::deque<Event>` becomes `List Event`.
* User callbacks (`std::function`) cannot be executed symbolically, so an
  action slot is modelled as `Option String`: `none` is a null
  `std::function`, `some label` is a stored callback identified by an opaque
  label.  Invoking a callback is modelled by emitting an `Obs` observation
  carrying the label and the exact arguments the C++ code passes.  Guard
  callbacks feed control flow, so they are modelled as actual Lean functions
  returning `Bool`.
* Every C++ member function that mutates the machine becomes a function
  `StateMachine → ... → Bool × StateMachine` (plus a `List Obs` trace for the
  event-processing entry points), mirroring the code path for path.
-/

namespace CppStateMachineFramework

/-- Event: an immutable value carrying a name (the opaque parameter plays no
role in any claim and is omitted). -/
structure Event where
  name : String
deriving DecidableEq

/-- Validation status of the state machine (StateMachine.hpp). -/
inductive ValidationStatus where
  | Unvalidated
  | Valid
  | Invalid
deriving DecidableEq

/-- Guard callback of a state transition: `(trigger, currentState, nextState) → Bool`. -/
abbrev StateTransitionGuardCondition := Event → String → String → Bool

/-- Guard callback of an internal transition: `(trigger, currentState) → Bool`. -/
abbrev InternalTransitionGuardCondition := Event → String → Bool

/-- Data of a state transition (StateMachine.hpp, struct StateTransitionData). -/
structure StateTransitionData where
  state : String
  guard : Option StateTransitionGuardCondition
  action : Option String

/-- Data of an internal transition (StateMachine.hpp, struct InternalTransitionData).
The action is required (checked non-null at insertion), so it is a plain label. -/
structure InternalTransitionData where
  guard : Option InternalTransitionGuardCondition
  action : String

/-- Data of the initial transition (StateMachine.hpp, struct InitialTransitionData). -/
structure InitialTransitionData where
  state : String
  action : Option String

/-- Data attached to a declared state (StateMachine.hpp, struct StateData). -/
structure StateData where
  entryAction : Option String
  exitAction : Option String
  stateTransitions : List (String × StateTransitionData)
  internalTransitions : List (String × InternalTransitionData)
  defaultStateTransition : Option StateTransitionData
  defaultInternalTransition : Option InternalTransitionData

/-- Default-constructed StateData (all slots empty), as produced by
`m_states[stateName] = {}`. -/
def StateData.empty : StateData :=
  { entryAction := none
    exitAction := none
    stateTransitions := []
    internalTransitions := []
    defaultStateTransition := none
    defaultInternalTransition := none }

/-- The state machine (StateMachine.hpp data members; the mutexes carry no
sequential meaning and are dropped). -/
structure StateMachine where
  states : List (String × StateData)
  initialTransition : InitialTransitionData
  validationStatus : ValidationStatus
  started : Bool
  currentState : String
  eventQueue : List Event
  finalEvent : Option Event

/-- Freshly constructed state machine (StateMachine::StateMachine). -/
def StateMachine.init : StateMachine :=
  { states := []
    initialTransition := { state := "", action := none }
    validationStatus := ValidationStatus.Unvalidated
    started := false
    currentState := ""
    eventQueue := []
    finalEvent := none }

/-- Replaces the value bound to a key in the state map (the C++ code mutates
through an iterator obtained from `find`, so the key is present). -/
def updateState (states : List (String × StateData)) (name : String) (sd : StateData) :
    List (String × StateData) :=
  match states with
  | [] => []
  | (k, v) :: rest =>
    if k = name then (k, sd) :: rest else (k, v) :: updateState rest name sd

/-- Lookup that inserts a default-constructed record when the key is missing,
mirroring `m_states[transitionData.state]` (map subscript access). -/
def getStateOrInsert (states : List (String × StateData)) (name : String) :
    StateData × List (String × StateData) :=
  match List.lookup name states with
  | some sd => (sd, states)
  | none => (StateData.empty, states ++ [(name, StateData.empty)])

/-- StateMachine::isFinalState: a state is final when all four transition
tables/slots are empty. -/
def isFinalState (stateData : StateData) : Bool :=
  stateData.stateTransitions.isEmpty &&
  stateData.internalTransitions.isEmpty &&
  stateData.defaultStateTransition.isNone &&
  stateData.defaultInternalTransition.isNone

/-- QSet-style insertion into the set of reached state names. -/
def insertReached (reached : List String) (name : String) : List String :=
  if reached.contains name then reached else reached ++ [name]

/-- StateMachine::traverseStates: depth-first traversal recording every state
reached from `stateName`.  Only the targets of entries of `stateTransitions`
are followed; default transitions are not consulted.  The C++ recursion
terminates because the reached set grows, which bounds the recursion depth by
the number of states; here the same recursion carries a fuel argument, and
`validate` passes more fuel than the C++ call depth can ever reach. -/
def traverseStates (states : List (String × StateData)) : Nat → String → List String → List String
  | 0, _, statesReached => statesReached
  | Nat.succ fuel, stateName, statesReached =>
    let reached := insertReached statesReached stateName
    match List.lookup stateName states with
    | none => reached
    | some stateData =>
      stateData.stateTransitions.foldl
        (fun acc item =>
          if acc.contains item.2.state then acc
          else traverseStates states fuel item.2.state acc)
        reached


/-- StateMachine::validate. -/
def validate (m : StateMachine) : Bool × StateMachine :=
  if m.started then
    (false, m)
  else if m.states.isEmpty then
    (false, { m with validationStatus := ValidationStatus.Invalid })
  else if m.initialTransition.state.isEmpty then
    (false, { m with validationStatus := ValidationStatus.Invalid })
  else if m.states.any (fun p => isFinalState p.2 && p.2.exitAction.isSome) then
    (false, { m with validationStatus := ValidationStatus.Invalid })
  else
    let availableStates := m.states.map Prod.fst
    let statesReached :=
      traverseStates m.states (m.states.length + 1) m.initialTransition.state []
    if statesReached.all (fun s => availableStates.contains s) &&
        availableStates.all (fun s => statesReached.contains s) then
      (true, { m with validationStatus := ValidationStatus.Valid })
    else
      (false, { m with validationStatus := ValidationStatus.Invalid })

/-- StateMachine::stopInternal. -/
def stopInternal (m : StateMachine) : Bool × StateMachine :=
  if !m.started then (false, m) else (true, { m with started := false })

/-- StateMachine::stop (the mutex split has no sequential content). -/
def stop (m : StateMachine) : Bool × StateMachine :=
  stopInternal m

/-- StateMachine::addState. -/
def addState (m : StateMachine) (stateName : String) : Bool × StateMachine :=
  if m.started then
    (false, m)
  else if stateName.isEmpty then
    (false, m)
  else if (List.lookup stateName m.states).isSome then
    (false, m)
  else
    (true, { m with
      states := m.states ++ [(stateName, StateData.empty)]
      validationStatus := ValidationStatus.Unvalidated })

/-- StateMachine::setStateEntryAction (the argument is `none` for a null
`std::function`). -/
def setStateEntryAction (m : StateMachine) (stateName : String) (entryAction : Option String) :
    Bool × StateMachine :=
  if m.started then
    (false, m)
  else if entryAction.isNone then
    (false, m)
  else
    match List.lookup stateName m.states with
    | none => (false, m)
    | some stateData =>
      if stateData.entryAction.isSome then
        (false, m)
      else
        (true, { m with
          states := updateState m.states stateName ({ stateData with entryAction := entryAction })
          validationStatus := ValidationStatus.Unvalidated })

/-- StateMachine::setStateExitAction. -/
def setStateExitAction (m : StateMachine) (stateName : String) (exitAction : Option String) :
    Bool × StateMachine :=
  if m.started then
    (false, m)
  else if exitAction.isNone then
    (false, m)
  else
    match List.lookup stateName m.states with
    | none => (false, m)
    | some stateData =>
      if stateData.exitAction.isSome then
        (false, m)
      else
        (true, { m with
          states := updateState m.states stateName ({ stateData with exitAction := exitAction })
          validationStatus := ValidationStatus.Unvalidated })

/-- StateMachine::setInitialTransition.  Note that the C++ code contains no
started-flag check: the only refusal causes are an already-set initial
transition and an unknown state name. -/
def setInitialTransition (m : StateMachine) (initialState : String) (action : Option String) :
    Bool × StateMachine :=
  if !m.initialTransition.state.isEmpty then
    (false, m)
  else if (List.lookup initialState m.states).isNone then
    (false, m)
  else
    (true, { m with
      initialTransition := { state := initialState, action := action }
      validationStatus := ValidationStatus.Unvalidated })

/-- StateMachine::addStateTransition. -/
def addStateTransition (m : StateMachine) (fromState trigger toState : String)
    (action : Option String) (guard : Option StateTransitionGuardCondition) :
    Bool × StateMachine :=
  if m.started then
    (false, m)
  else
    match List.lookup fromState m.states with
    | none => (false, m)
    | some stateData =>
      if trigger.isEmpty then
        (false, m)
      else if (List.lookup toState m.states).isNone then
        (false, m)
      else if (List.lookup trigger stateData.stateTransitions).isSome ||
          (List.lookup trigger stateData.internalTransitions).isSome then
        (false, m)
      else
        (true, { m with
          states := updateState m.states fromState
            ({ stateData with stateTransitions := stateData.stateTransitions ++
                [(trigger, { state := toState, guard := guard, action := action })] })
          validationStatus := ValidationStatus.Unvalidated })

/-- StateMachine::addInternalTransition. -/
def addInternalTransition (m : StateMachine) (state trigger : String)
    (action : Option String) (guard : Option InternalTransitionGuardCondition) :
    Bool × StateMachine :=
  if m.started then
    (false, m)
  else
    match List.lookup state m.states with
    | none => (false, m)
    | some stateData =>
      if trigger.isEmpty then
        (false, m)
      else
        match action with
        | none => (false, m)
        | some act =>
          if (List.lookup trigger stateData.stateTransitions).isSome ||
              (List.lookup trigger stateData.internalTransitions).isSome then
            (false, m)
          else
            (true, { m with
              states := updateState m.states state
                ({ stateData with internalTransitions := stateData.internalTransitions ++
                    [(trigger, { guard := guard, action := act })] })
              validationStatus := ValidationStatus.Unvalidated })

/-- StateMachine::setDefaultTransition (state-transition overload). -/
def setDefaultTransition (m : StateMachine) (fromState toState : String)
    (action : Option String) (guard : Option StateTransitionGuardCondition) :
    Bool × StateMachine :=
  if m.started then
    (false, m)
  else
    match List.lookup fromState m.states with
    | none => (false, m)
    | some stateData =>
      if (List.lookup toState m.states).isNone then
        (false, m)
      else if stateData.defaultStateTransition.isSome ||
          stateData.defaultInternalTransition.isSome then
        (false, m)
      else
        (true, { m with
          states := updateState m.states fromState
            ({ stateData with defaultStateTransition := some ({ state := toState, guard := guard, action := action }) })
          validationStatus := ValidationStatus.Unvalidated })

/-- StateMachine::setDefaultTransition (internal-transition overload). -/
def setDefaultInternalTransition (m : StateMachine) (state : String)
    (action : Option String) (guard : Option InternalTransitionGuardCondition) :
    Bool × StateMachine :=
  if m.started then
    (false, m)
  else
    match List.lookup state m.states with
    | none => (false, m)
    | some stateData =>
      match action with
      | none => (false, m)
      | some act =>
        if stateData.defaultStateTransition.isSome ||
            stateData.defaultInternalTransition.isSome then
          (false, m)
        else
          (true, { m with
            states := updateState m.states state
              ({ stateData with defaultInternalTransition := some ({ guard := guard, action := act }) })
            validationStatus := ValidationStatus.Unvalidated })

/-- Observation of one user-callback invocation, recording the stored label
and the exact arguments the C++ code passes. -/
inductive Obs where
  | initialAction (label : String) (event : Event) (initialState : String)
  | entryAction (label : String) (event : Event) (currentState previousState : String)
  | exitAction (label : String) (event : Event) (currentState nextState : String)
  | transitionAction (label : String) (event : Event) (currentState nextState : String)
  | internalAction (label : String) (event : Event) (currentState : String)
deriving DecidableEq

/-- Result of the guard check of a state transition: allowed unless a guard is
present and returns false. -/
def stateGuardAllows (guard : Option StateTransitionGuardCondition) (event : Event)
    (currentState nextState : String) : Bool :=
  match guard with
  | none => true
  | some g => g event currentState nextState

/-- Result of the guard check of an internal transition. -/
def internalGuardAllows (guard : Option InternalTransitionGuardCondition) (event : Event)
    (currentState : String) : Bool :=
  match guard with
  | none => true
  | some g => g event currentState

/-- Trace contributed by an optional callback slot. -/
def obsOfSlot (slot : Option String) (mk : String → Obs) : List Obs :=
  match slot with
  | none => []
  | some label => [mk label]

/-- StateMachine::executeStateTransition. -/
def executeStateTransition (m : StateMachine) (transitionData : StateTransitionData)
    (event : Event) : StateMachine × List Obs :=
  if !stateGuardAllows transitionData.guard event m.currentState transitionData.state then
    (m, [])
  else
    match List.lookup m.currentState m.states with
    | none => (m, [])
    | some currentStateData =>
      let exitObs := obsOfSlot currentStateData.exitAction
        (fun label => Obs.exitAction label event m.currentState transitionData.state)
      let actionObs := obsOfSlot transitionData.action
        (fun label => Obs.transitionAction label event m.currentState transitionData.state)
      let next := getStateOrInsert m.states transitionData.state
      let entryObs := obsOfSlot next.1.entryAction
        (fun label => Obs.entryAction label event transitionData.state m.currentState)
      let m1 := { m with states := next.2, currentState := transitionData.state }
      if isFinalState next.1 then
        ((stopInternal ({ m1 with finalEvent := some event })).2, exitObs ++ actionObs ++ entryObs)
      else
        (m1, exitObs ++ actionObs ++ entryObs)

/-- StateMachine::executeInternalTransition. -/
def executeInternalTransition (m : StateMachine) (transitionData : InternalTransitionData)
    (event : Event) : StateMachine × List Obs :=
  if !internalGuardAllows transitionData.guard event m.currentState then
    (m, [])
  else
    (m, [Obs.internalAction transitionData.action event m.currentState])

/-- StateMachine::executeInitialTransition. -/
def executeInitialTransition (m : StateMachine) (event : Event) : StateMachine × List Obs :=
  let initObs := obsOfSlot m.initialTransition.action
    (fun label => Obs.initialAction label event m.initialTransition.state)
  match List.lookup m.initialTransition.state m.states with
  | none => (m, initObs)
  | some stateData =>
    let entryObs := obsOfSlot stateData.entryAction
      (fun label => Obs.entryAction label event m.initialTransition.state "")
    let m1 := { m with currentState := m.initialTransition.state }
    if isFinalState stateData then
      ((stopInternal ({ m1 with finalEvent := some event })).2, initObs ++ entryObs)
    else
      (m1, initObs ++ entryObs)

/-- StateMachine::start. -/
def start (m : StateMachine) (event : Event) : Bool × StateMachine × List Obs :=
  if event.name.isEmpty then
    (false, m, [])
  else if m.started then
    (false, m, [])
  else if m.validationStatus = ValidationStatus.Valid then
    let m1 := { m with
      eventQueue := []
      currentState := ""
      finalEvent := none
      started := true }
    let r := executeInitialTransition m1 event
    (true, r.1, r.2)
  else
    (false, m, [])

/-- StateMachine::addEventToFront. -/
def addEventToFront (m : StateMachine) (event : Event) : Bool × StateMachine :=
  if event.name.isEmpty then
    (false, m)
  else if !m.started then
    (false, m)
  else
    (true, { m with eventQueue := event :: m.eventQueue })

/-- StateMachine::addEventToBack. -/
def addEventToBack (m : StateMachine) (event : Event) : Bool × StateMachine :=
  if event.name.isEmpty then
    (false, m)
  else if !m.started then
    (false, m)
  else
    (true, { m with eventQueue := m.eventQueue ++ [event] })

/-- StateMachine::processNextEvent.  The C++ emptiness pre-checks before the
two map lookups are dropped: a lookup in an empty table already yields
nothing, so they do not alter the result. -/
def processNextEvent (m : StateMachine) : Bool × StateMachine × List Obs :=
  if !m.started then
    (false, m, [])
  else
    match m.eventQueue with
    | [] => (false, m, [])
    | event :: rest =>
      let m1 := { m with eventQueue := rest }
      match List.lookup m1.currentState m1.states with
      | none => (false, m1, [])
      | some stateData =>
        match List.lookup event.name stateData.internalTransitions with
        | some transitionData =>
          let r := executeInternalTransition m1 transitionData event
          (true, r.1, r.2)
        | none =>
          match List.lookup event.name stateData.stateTransitions with
          | some transitionData =>
            let r := executeStateTransition m1 transitionData event
            (true, r.1, r.2)
          | none =>
            match stateData.defaultInternalTransition with
            | some transitionData =>
              let r := executeInternalTransition m1 transitionData event
              (true, r.1, r.2)
            | none =>
              match stateData.defaultStateTransition with
              | some transitionData =>
                let r := executeStateTransition m1 transitionData event
                (true, r.1, r.2)
              | none => (true, m1, [])

/-- StateMachine::takeFinalEvent. -/
def takeFinalEvent (m : StateMachine) : Option Event × StateMachine :=
  (m.finalEvent, { m with finalEvent := none })

/-- StateMachine::finalStateReached.  The `none` branch is the defensive
handling of a current state that resolves to no state record. -/
def finalStateReached (m : StateMachine) : Bool :=
  match List.lookup m.currentState m.states with
  | none => false
  | some stateData => isFinalState stateData

/-- StateMachine::hasPendingEvents. -/
def hasPendingEvents (m : StateMachine) : Bool :=
  !m.eventQueue.isEmpty

/-- StateMachine::hasFinalEvent. -/
def hasFinalEvent (m : StateMachine) : Bool :=
  m.finalEvent.isSome


/-! Concrete machines used by counterexamples and witnesses. -/

/-- State record with a single state transition on event "go" to state "b". -/
def sdGoToB : StateData :=
  { StateData.empty with stateTransitions := [("go", { state := "b", guard := none, action := none })] }

/-- State record whose only outgoing edge is a default state transition to "b". -/
def sdDefaultToB : StateData :=
  { StateData.empty with defaultStateTransition := some ({ state := "b", guard := none, action := none }) }

/-- Configuration in which state "b" is reachable only through the default
state transition of the initial state "a". -/
def mDefaultOnly : StateMachine :=
  { states := [("a", sdDefaultToB), ("b", StateData.empty)]
    initialTransition := { state := "a", action := none }
    validationStatus := ValidationStatus.Unvalidated
    started := false
    currentState := ""
    eventQueue := []
    finalEvent := none }

/-- Two-state configuration in which "b" is reachable by the state transition
of "a" on event "go". -/
def mLinear : StateMachine :=
  { states := [("a", sdGoToB), ("b", StateData.empty)]
    initialTransition := { state := "a", action := none }
    validationStatus := ValidationStatus.Unvalidated
    started := false
    currentState := ""
    eventQueue := []
    finalEvent := none }

/-- Machine configured through the public API: states "a" and "b", initial
state "a", state transition "a" -"go"-> "b". -/
def mStep1 : StateMachine := (addState StateMachine.init "a").2

/-- Second configuration step: state "b" added. -/
def mStep2 : StateMachine := (addState mStep1 "b").2

/-- Third configuration step: initial transition set to "a". -/
def mStep3 : StateMachine := (setInitialTransition mStep2 "a" none).2

/-- Fourth configuration step: state transition "a" -"go"-> "b" added. -/
def mStep4 : StateMachine := (addStateTransition mStep3 "a" "go" "b" none none).2

/-- Fifth step: validated. -/
def mStep5 : StateMachine := (validate mStep4).2

/-- Sixth step: started with the default startup event. -/
def mStep6 : StateMachine := (start mStep5 { name := "Started" }).2.1

/-- Running machine with one pending "go" event. -/
def mRunning : StateMachine := (addEventToBack mStep6 { name := "go" }).2

/-- Guard used by the guarded example machine: blocks every transition. -/
def blockingGuard : StateTransitionGuardCondition := fun _ _ _ => false

/-- Like mStep4 but the "go" transition carries a guard that returns false. -/
def mGuard4 : StateMachine :=
  (addStateTransition mStep3 "a" "go" "b" none (some blockingGuard)).2

/-- Guarded machine, validated. -/
def mGuard5 : StateMachine := (validate mGuard4).2

/-- Guarded machine, started. -/
def mGuard6 : StateMachine := (start mGuard5 { name := "Started" }).2.1

/-- Running guarded machine with one pending "go" event. -/
def mGuardRunning : StateMachine := (addEventToBack mGuard6 { name := "go" }).2


/-! Specification-side predicates, the public-operation reachability
relation, and the machine invariant. -/

/-- Edge of the traversal actually implemented by `traverseStates`: a state
transition entry of the source state leads to its target. -/
def transitionEdge (states : List (String × StateData)) (s t : String) : Prop :=
  ∃ sd, List.lookup s states = some sd ∧ ∃ q ∈ sd.stateTransitions, q.2.state = t

/-- Edge relation in the reachability wording of the specification: both the
targets of `stateTransitions` entries and the target of the
`defaultStateTransition` of a state count as successors. -/
def specEdgeWithDefaults (states : List (String × StateData)) (s t : String) : Prop :=
  transitionEdge states s t ∨
    ∃ sd, List.lookup s states = some sd ∧
      ∃ td, sd.defaultStateTransition = some td ∧ td.state = t

/-- Outcome of resolving one event against a state record. -/
inductive Resolution where
  | internalFired (transitionData : InternalTransitionData)
  | stateFired (transitionData : StateTransitionData)
  | dropped

/-- Transition-resolution policy as worded by the specification (section 4.6):
specific internal transition, else specific state transition, else default
internal transition, else default state transition, else drop. -/
def resolveEvent (stateData : StateData) (eventName : String) : Resolution :=
  match List.lookup eventName stateData.internalTransitions with
  | some transitionData => Resolution.internalFired transitionData
  | none =>
    match List.lookup eventName stateData.stateTransitions with
    | some transitionData => Resolution.stateFired transitionData
    | none =>
      match stateData.defaultInternalTransition with
      | some transitionData => Resolution.internalFired transitionData
      | none =>
        match stateData.defaultStateTransition with
        | some transitionData => Resolution.stateFired transitionData
        | none => Resolution.dropped

/-- Machines reachable from a freshly constructed machine through the public
API. -/
inductive Reachable : StateMachine → Prop where
  | init_step : Reachable StateMachine.init
  | addState_step (m : StateMachine) (stateName : String) :
      Reachable m → Reachable (addState m stateName).2
  | setStateEntryAction_step (m : StateMachine) (stateName : String) (action : Option String) :
      Reachable m → Reachable (setStateEntryAction m stateName action).2
  | setStateExitAction_step (m : StateMachine) (stateName : String) (action : Option String) :
      Reachable m → Reachable (setStateExitAction m stateName action).2
  | setInitialTransition_step (m : StateMachine) (initialState : String) (action : Option String) :
      Reachable m → Reachable (setInitialTransition m initialState action).2
  | addStateTransition_step (m : StateMachine) (fromState trigger toState : String)
      (action : Option String) (guard : Option StateTransitionGuardCondition) :
      Reachable m → Reachable (addStateTransition m fromState trigger toState action guard).2
  | addInternalTransition_step (m : StateMachine) (state trigger : String)
      (action : Option String) (guard : Option InternalTransitionGuardCondition) :
      Reachable m → Reachable (addInternalTransition m state trigger action guard).2
  | setDefaultTransition_step (m : StateMachine) (fromState toState : String)
      (action : Option String) (guard : Option StateTransitionGuardCondition) :
      Reachable m → Reachable (setDefaultTransition m fromState toState action guard).2
  | setDefaultInternalTransition_step (m : StateMachine) (state : String)
      (action : Option String) (guard : Option InternalTransitionGuardCondition) :
      Reachable m → Reachable (setDefaultInternalTransition m state action guard).2
  | validate_step (m : StateMachine) : Reachable m → Reachable (validate m).2
  | start_step (m : StateMachine) (event : Event) : Reachable m → Reachable (start m event).2.1
  | stop_step (m : StateMachine) : Reachable m → Reachable (stop m).2
  | addEventToFront_step (m : StateMachine) (event : Event) :
      Reachable m → Reachable (addEventToFront m event).2
  | addEventToBack_step (m : StateMachine) (event : Event) :
      Reachable m → Reachable (addEventToBack m event).2
  | processNextEvent_step (m : StateMachine) :
      Reachable m → Reachable (processNextEvent m).2.1
  | takeFinalEvent_step (m : StateMachine) :
      Reachable m → Reachable (takeFinalEvent m).2

/-- Structural invariant maintained by every public operation. -/
structure Invariant (m : StateMachine) : Prop where
  keys_ne_empty : ∀ p ∈ m.states, p.1 ≠ ""
  targets_exist : ∀ p ∈ m.states, ∀ q ∈ p.2.stateTransitions,
      (List.lookup q.2.state m.states).isSome = true
  default_target_exists : ∀ p ∈ m.states, ∀ td, p.2.defaultStateTransition = some td →
      (List.lookup td.state m.states).isSome = true
  initial_exists : m.initialTransition.state ≠ "" →
      (List.lookup m.initialTransition.state m.states).isSome = true
  valid_initial : m.validationStatus = ValidationStatus.Valid → m.initialTransition.state ≠ ""
  started_initial : m.started = true → m.initialTransition.state ≠ ""
  current_ok : m.currentState = "" ∨ (List.lookup m.currentState m.states).isSome = true
  started_current : m.started = true → (List.lookup m.currentState m.states).isSome = true


/-! Association-list helper lemmas. -/

theorem lookup_cons_ite {β : Type} (k k1 : String) (v1 : β) (rest : List (String × β)) :
    List.lookup k ((k1, v1) :: rest) = if k = k1 then some v1 else List.lookup k rest := by
  rw [List.lookup_cons]
  by_cases h : k = k1
  · subst h; simp
  · simp [beq_false_of_ne h, h]

theorem mem_of_lookup_eq_some {β : Type} {k : String} {v : β} :
    ∀ {l : List (String × β)}, List.lookup k l = some v → (k, v) ∈ l := by
  intro l
  induction l with
  | nil => intro h; simp at h
  | cons p rest ih =>
    intro h
    rcases p with ⟨k1, v1⟩
    rw [lookup_cons_ite] at h
    by_cases hk : k = k1
    · subst hk
      rw [if_pos rfl, Option.some.injEq] at h
      subst h
      exact List.mem_cons_self _ _
    · rw [if_neg hk] at h
      exact List.mem_cons_of_mem _ (ih h)

theorem lookup_append {β : Type} (l₁ l₂ : List (String × β)) (k : String) :
    List.lookup k (l₁ ++ l₂) = (List.lookup k l₁).or (List.lookup k l₂) := by
  induction l₁ with
  | nil => simp
  | cons p rest ih =>
    rcases p with ⟨k1, v1⟩
    rw [List.cons_append, lookup_cons_ite, lookup_cons_ite]
    by_cases hk : k = k1
    · rw [if_pos hk, if_pos hk]; rfl
    · rw [if_neg hk, if_neg hk]; exact ih

theorem isSome_lookup_append_left {β : Type} (l₁ l₂ : List (String × β)) (k : String)
    (h : (List.lookup k l₁).isSome = true) :
    List.lookup k (l₁ ++ l₂) = List.lookup k l₁ := by
  rw [lookup_append]
  cases hl : List.lookup k l₁ with
  | none => rw [hl] at h; simp at h
  | some v => rfl

theorem isSome_lookup_append_mono {β : Type} (l₁ l₂ : List (String × β)) (k : String)
    (h : (List.lookup k l₁).isSome = true) :
    (List.lookup k (l₁ ++ l₂)).isSome = true := by
  rw [isSome_lookup_append_left l₁ l₂ k h]
  exact h

theorem lookup_updateState_self (sd : StateData) :
    ∀ (states : List (String × StateData)) (name : String) (v : StateData),
      List.lookup name states = some v →
      List.lookup name (updateState states name sd) = some sd := by
  intro states
  induction states with
  | nil => intro name v h; simp at h
  | cons p rest ih =>
    intro name v h
    rcases p with ⟨k1, v1⟩
    rw [updateState]
    by_cases hk : k1 = name
    · subst hk
      rw [if_pos rfl, lookup_cons_ite, if_pos rfl]
    · rw [if_neg hk, lookup_cons_ite, if_neg (Ne.symm hk)]
      rw [lookup_cons_ite, if_neg (Ne.symm hk)] at h
      exact ih name v h

theorem lookup_updateState_ne (sd : StateData) (k name : String) (h : k ≠ name) :
    ∀ states, List.lookup k (updateState states name sd) = List.lookup k states := by
  intro states
  induction states with
  | nil => rfl
  | cons p rest ih =>
    rcases p with ⟨k1, v1⟩
    rw [updateState]
    by_cases hk : k1 = name
    · subst hk
      rw [if_pos rfl, lookup_cons_ite, lookup_cons_ite, if_neg h, if_neg h]
    · rw [if_neg hk, lookup_cons_ite, lookup_cons_ite]
      by_cases hkk : k = k1
      · rw [if_pos hkk, if_pos hkk]
      · rw [if_neg hkk, if_neg hkk]
        exact ih

theorem isSome_lookup_updateState (sd : StateData) (k name : String) :
    ∀ states, (List.lookup k (updateState states name sd)).isSome =
      (List.lookup k states).isSome := by
  intro states
  induction states with
  | nil => rfl
  | cons p rest ih =>
    rcases p with ⟨k1, v1⟩
    rw [updateState]
    by_cases hk : k1 = name
    · subst hk
      rw [lookup_cons_ite]
      by_cases hkk : k = k1
      · rw [if_pos rfl, lookup_cons_ite, if_pos hkk, if_pos hkk]
        rfl
      · rw [if_pos rfl, lookup_cons_ite, if_neg hkk, if_neg hkk]
    · rw [if_neg hk, lookup_cons_ite, lookup_cons_ite]
      by_cases hkk : k = k1
      · rw [if_pos hkk, if_pos hkk]
      · rw [if_neg hkk, if_neg hkk]
        exact ih

theorem mem_updateState (sd : StateData) (name : String) :
    ∀ states p, p ∈ updateState states name sd → p ∈ states ∨ p = (name, sd) := by
  intro states
  induction states with
  | nil => intro p h; simp [updateState] at h
  | cons q rest ih =>
    intro p h
    rcases q with ⟨k1, v1⟩
    rw [updateState] at h
    by_cases hk : k1 = name
    · subst hk
      rw [if_pos rfl] at h
      rcases List.mem_cons.mp h with h1 | h1
      · right; rw [h1]
      · left; exact List.mem_cons_of_mem _ h1
    · rw [if_neg hk] at h
      rcases List.mem_cons.mp h with h1 | h1
      · left; rw [h1]; exact List.mem_cons_self _ _
      · rcases ih p h1 with h2 | h2
        · left; exact List.mem_cons_of_mem _ h2
        · right; exact h2

theorem getStateOrInsert_of_lookup {states : List (String × StateData)} {name : String}
    {sd : StateData} (h : List.lookup name states = some sd) :
    getStateOrInsert states name = (sd, states) := by
  rw [getStateOrInsert, h]


/-! Invariant preservation lemmas. -/

theorem invariant_of_eq_fields {m m' : StateMachine} (h : Invariant m)
    (hs : m'.states = m.states) (hi : m'.initialTransition = m.initialTransition)
    (hv : m'.validationStatus = m.validationStatus) (hst : m'.started = m.started)
    (hc : m'.currentState = m.currentState) : Invariant m' := by
  constructor
  · rw [hs]; exact h.keys_ne_empty
  · rw [hs]; exact h.targets_exist
  · rw [hs]; exact h.default_target_exists
  · rw [hs, hi]; exact h.initial_exists
  · rw [hv, hi]; exact h.valid_initial
  · rw [hst, hi]; exact h.started_initial
  · rw [hc, hs]; exact h.current_ok
  · rw [hst, hc, hs]; exact h.started_current

theorem invariant_setStatus {m : StateMachine} (h : Invariant m) (v : ValidationStatus)
    (hv : v = ValidationStatus.Valid → m.initialTransition.state ≠ "") :
    Invariant { m with validationStatus := v } := by
  constructor
  · exact h.keys_ne_empty
  · exact h.targets_exist
  · exact h.default_target_exists
  · exact h.initial_exists
  · exact hv
  · exact h.started_initial
  · exact h.current_ok
  · exact h.started_current

theorem invariant_appendState {m : StateMachine} (h : Invariant m) (name : String)
    (hname : name ≠ "") :
    Invariant { m with states := m.states ++ [(name, StateData.empty)]
                       validationStatus := ValidationStatus.Unvalidated } := by
  constructor
  · intro p hp
    rcases List.mem_append.mp hp with h1 | h1
    · exact h.keys_ne_empty p h1
    · rcases List.mem_singleton.mp h1 with rfl
      exact hname
  · intro p hp q hq
    rcases List.mem_append.mp hp with h1 | h1
    · exact isSome_lookup_append_mono _ _ _ (h.targets_exist p h1 q hq)
    · rcases List.mem_singleton.mp h1 with rfl
      simp [StateData.empty] at hq
  · intro p hp td htd
    rcases List.mem_append.mp hp with h1 | h1
    · exact isSome_lookup_append_mono _ _ _ (h.default_target_exists p h1 td htd)
    · rcases List.mem_singleton.mp h1 with rfl
      simp [StateData.empty] at htd
  · intro hne
    exact isSome_lookup_append_mono _ _ _ (h.initial_exists hne)
  · intro hvalid
    cases hvalid
  · exact h.started_initial
  · rcases h.current_ok with h1 | h1
    · left; exact h1
    · right; exact isSome_lookup_append_mono _ _ _ h1
  · intro hstarted
    exact isSome_lookup_append_mono _ _ _ (h.started_current hstarted)

theorem invariant_updateState {m : StateMachine} (h : Invariant m) (name : String)
    {sd : StateData} (sd' : StateData) (hlk : List.lookup name m.states = some sd)
    (hst : ∀ q ∈ sd'.stateTransitions, (List.lookup q.2.state m.states).isSome = true)
    (hdt : ∀ td, sd'.defaultStateTransition = some td →
      (List.lookup td.state m.states).isSome = true) :
    Invariant { m with states := updateState m.states name sd'
                       validationStatus := ValidationStatus.Unvalidated } := by
  have hmemname : (name, sd) ∈ m.states := mem_of_lookup_eq_some hlk
  constructor
  · intro p hp
    rcases mem_updateState sd' name m.states p hp with h1 | h1
    · exact h.keys_ne_empty p h1
    · rw [h1]
      exact h.keys_ne_empty (name, sd) hmemname
  · intro p hp q hq
    rw [isSome_lookup_updateState]
    rcases mem_updateState sd' name m.states p hp with h1 | h1
    · exact h.targets_exist p h1 q hq
    · rw [h1] at hq
      exact hst q hq
  · intro p hp td htd
    rw [isSome_lookup_updateState]
    rcases mem_updateState sd' name m.states p hp with h1 | h1
    · exact h.default_target_exists p h1 td htd
    · rw [h1] at htd
      exact hdt td htd
  · intro hne
    rw [isSome_lookup_updateState]
    exact h.initial_exists hne
  · intro hvalid
    cases hvalid
  · exact h.started_initial
  · rcases h.current_ok with h1 | h1
    · left; exact h1
    · right; rw [isSome_lookup_updateState]; exact h1
  · intro hstarted
    rw [isSome_lookup_updateState]
    exact h.started_current hstarted

theorem invariant_setInitial {m : StateMachine} (h : Invariant m) (s : String)
    (act : Option String) (hs : (List.lookup s m.states).isSome = true) :
    Invariant { m with initialTransition := { state := s, action := act }
                       validationStatus := ValidationStatus.Unvalidated } := by
  have hsne : s ≠ "" := by
    rcases Option.isSome_iff_exists.mp hs with ⟨v, hv⟩
    exact h.keys_ne_empty (s, v) (mem_of_lookup_eq_some hv)
  constructor
  · exact h.keys_ne_empty
  · exact h.targets_exist
  · exact h.default_target_exists
  · intro _
    exact hs
  · intro hvalid
    cases hvalid
  · intro _
    exact hsne
  · exact h.current_ok
  · exact h.started_current

theorem executeInternalTransition_machine (m : StateMachine)
    (transitionData : InternalTransitionData) (event : Event) :
    (executeInternalTransition m transitionData event).1 = m := by
  rw [executeInternalTransition]
  split
  · rfl
  · rfl

theorem invariant_executeStateTransition {m : StateMachine} (h : Invariant m)
    (transitionData : StateTransitionData) (event : Event)
    (htd : (List.lookup transitionData.state m.states).isSome = true) :
    Invariant (executeStateTransition m transitionData event).1 := by
  rcases Option.isSome_iff_exists.mp htd with ⟨nds, hnds⟩
  rw [executeStateTransition]
  split
  · exact h
  · split
    · exact h
    · rename_i currentStateData hcur
      rw [getStateOrInsert_of_lookup hnds]
      dsimp only
      split
      · rw [stopInternal]
        split
        · constructor
          · exact h.keys_ne_empty
          · exact h.targets_exist
          · exact h.default_target_exists
          · exact h.initial_exists
          · exact h.valid_initial
          · rename_i hnotstarted
            intro hc
            simp at hnotstarted
            rw [hnotstarted] at hc
            cases hc
          · right; exact htd
          · rename_i hnotstarted
            intro hc
            simp at hnotstarted
            rw [hnotstarted] at hc
            cases hc
        · constructor
          · exact h.keys_ne_empty
          · exact h.targets_exist
          · exact h.default_target_exists
          · exact h.initial_exists
          · exact h.valid_initial
          · intro hc; cases hc
          · right; exact htd
          · intro hc; cases hc
      · constructor
        · exact h.keys_ne_empty
        · exact h.targets_exist
        · exact h.default_target_exists
        · exact h.initial_exists
        · exact h.valid_initial
        · exact h.started_initial
        · right; exact htd
        · intro _
          exact htd


theorem isSome_of_not_isNone {α : Type} {o : Option α} (h : ¬o.isNone = true) :
    o.isSome = true := by
  cases o
  · simp at h
  · rfl

theorem ne_empty_of_not_isEmpty {s : String} (h : ¬s.isEmpty = true) : s ≠ "" := by
  intro hc
  rw [hc] at h
  exact h rfl

theorem invariant_addState (m : StateMachine) (h : Invariant m) (stateName : String) :
    Invariant (addState m stateName).2 := by
  rw [addState]
  split
  · exact h
  · split
    · exact h
    · split
      · exact h
      · rename_i hempty _
        exact invariant_appendState h stateName (ne_empty_of_not_isEmpty hempty)

theorem invariant_setStateEntryAction (m : StateMachine) (h : Invariant m)
    (stateName : String) (action : Option String) :
    Invariant (setStateEntryAction m stateName action).2 := by
  rw [setStateEntryAction]
  split
  · exact h
  · split
    · exact h
    · split
      · exact h
      · rename_i stateData hlk
        split
        · exact h
        · refine invariant_updateState h stateName _ hlk ?_ ?_
          · exact fun q hq =>
              h.targets_exist (stateName, stateData) (mem_of_lookup_eq_some hlk) q hq
          · exact fun td htd =>
              h.default_target_exists (stateName, stateData) (mem_of_lookup_eq_some hlk) td htd

theorem invariant_setStateExitAction (m : StateMachine) (h : Invariant m)
    (stateName : String) (action : Option String) :
    Invariant (setStateExitAction m stateName action).2 := by
  rw [setStateExitAction]
  split
  · exact h
  · split
    · exact h
    · split
      · exact h
      · rename_i stateData hlk
        split
        · exact h
        · refine invariant_updateState h stateName _ hlk ?_ ?_
          · exact fun q hq =>
              h.targets_exist (stateName, stateData) (mem_of_lookup_eq_some hlk) q hq
          · exact fun td htd =>
              h.default_target_exists (stateName, stateData) (mem_of_lookup_eq_some hlk) td htd

theorem invariant_setInitialTransition (m : StateMachine) (h : Invariant m)
    (initialState : String) (action : Option String) :
    Invariant (setInitialTransition m initialState action).2 := by
  rw [setInitialTransition]
  split
  · exact h
  · split
    · exact h
    · rename_i hsome
      exact invariant_setInitial h initialState action (isSome_of_not_isNone hsome)

theorem invariant_addStateTransition (m : StateMachine) (h : Invariant m)
    (fromState trigger toState : String) (action : Option String)
    (guard : Option StateTransitionGuardCondition) :
    Invariant (addStateTransition m fromState trigger toState action guard).2 := by
  rw [addStateTransition]
  split
  · exact h
  · split
    · exact h
    · rename_i stateData hlk
      split
      · exact h
      · split
        · exact h
        · split
          · exact h
          · rename_i hto _
            refine invariant_updateState h fromState _ hlk ?_ ?_
            · intro q hq
              rcases List.mem_append.mp hq with h1 | h1
              · exact h.targets_exist (fromState, stateData) (mem_of_lookup_eq_some hlk) q h1
              · rcases List.mem_singleton.mp h1 with rfl
                exact isSome_of_not_isNone hto
            · exact fun td htd =>
                h.default_target_exists (fromState, stateData) (mem_of_lookup_eq_some hlk) td htd

theorem invariant_addInternalTransition (m : StateMachine) (h : Invariant m)
    (state trigger : String) (action : Option String)
    (guard : Option InternalTransitionGuardCondition) :
    Invariant (addInternalTransition m state trigger action guard).2 := by
  rw [addInternalTransition]
  split
  · exact h
  · split
    · exact h
    · rename_i stateData hlk
      split
      · exact h
      · split
        · exact h
        · split
          · exact h
          · refine invariant_updateState h state _ hlk ?_ ?_
            · exact fun q hq =>
                h.targets_exist (state, stateData) (mem_of_lookup_eq_some hlk) q hq
            · exact fun td htd =>
                h.default_target_exists (state, stateData) (mem_of_lookup_eq_some hlk) td htd

theorem invariant_setDefaultTransition (m : StateMachine) (h : Invariant m)
    (fromState toState : String) (action : Option String)
    (guard : Option StateTransitionGuardCondition) :
    Invariant (setDefaultTransition m fromState toState action guard).2 := by
  rw [setDefaultTransition]
  split
  · exact h
  · split
    · exact h
    · rename_i stateData hlk
      split
      · exact h
      · split
        · exact h
        · rename_i hto _
          refine invariant_updateState h fromState _ hlk ?_ ?_
          · exact fun q hq =>
              h.targets_exist (fromState, stateData) (mem_of_lookup_eq_some hlk) q hq
          · intro td htd
            rw [Option.some.injEq] at htd
            rw [← htd]
            exact isSome_of_not_isNone hto

theorem invariant_setDefaultInternalTransition (m : StateMachine) (h : Invariant m)
    (state : String) (action : Option String)
    (guard : Option InternalTransitionGuardCondition) :
    Invariant (setDefaultInternalTransition m state action guard).2 := by
  rw [setDefaultInternalTransition]
  split
  · exact h
  · split
    · exact h
    · rename_i stateData hlk
      split
      · exact h
      · split
        · exact h
        · refine invariant_updateState h state _ hlk ?_ ?_
          · exact fun q hq =>
              h.targets_exist (state, stateData) (mem_of_lookup_eq_some hlk) q hq
          · exact fun td htd =>
              h.default_target_exists (state, stateData) (mem_of_lookup_eq_some hlk) td htd

theorem invariant_validate (m : StateMachine) (h : Invariant m) :
    Invariant (validate m).2 := by
  rw [validate]
  split
  · exact h
  · split
    · exact invariant_setStatus h _ (fun hv => by cases hv)
    · split
      · exact invariant_setStatus h _ (fun hv => by cases hv)
      · split
        · exact invariant_setStatus h _ (fun hv => by cases hv)
        · rename_i hini _
          dsimp only
          split
          · exact invariant_setStatus h _ (fun _ => ne_empty_of_not_isEmpty hini)
          · exact invariant_setStatus h _ (fun hv => by cases hv)

theorem invariant_start (m : StateMachine) (event : Event) (h : Invariant m) :
    Invariant (start m event).2.1 := by
  rw [start]
  split
  · exact h
  · split
    · exact h
    · split
      · rename_i hvalid
        dsimp only
        have hini : m.initialTransition.state ≠ "" := h.valid_initial hvalid
        have hsome := h.initial_exists hini
        rcases Option.isSome_iff_exists.mp hsome with ⟨sd, hsd⟩
        rw [executeInitialTransition]
        dsimp only
        rw [hsd]
        dsimp only
        split
        · rw [stopInternal]
          dsimp only
          constructor
          · exact h.keys_ne_empty
          · exact h.targets_exist
          · exact h.default_target_exists
          · exact h.initial_exists
          · exact fun _ => hini
          · intro hc
            cases hc
          · right
            exact hsome
          · intro hc
            cases hc
        · constructor
          · exact h.keys_ne_empty
          · exact h.targets_exist
          · exact h.default_target_exists
          · exact h.initial_exists
          · exact fun _ => hini
          · exact fun _ => hini
          · right
            exact hsome
          · exact fun _ => hsome
      · exact h

theorem invariant_stopInternal (m : StateMachine) (h : Invariant m) :
    Invariant (stopInternal m).2 := by
  rw [stopInternal]
  split
  · exact h
  · constructor
    · exact h.keys_ne_empty
    · exact h.targets_exist
    · exact h.default_target_exists
    · exact h.initial_exists
    · exact h.valid_initial
    · intro hc; cases hc
    · exact h.current_ok
    · intro hc; cases hc

theorem invariant_stop (m : StateMachine) (h : Invariant m) : Invariant (stop m).2 := by
  rw [stop]
  exact invariant_stopInternal m h

theorem invariant_addEventToFront (m : StateMachine) (event : Event) (h : Invariant m) :
    Invariant (addEventToFront m event).2 := by
  rw [addEventToFront]
  split
  · exact h
  · split
    · exact h
    · exact invariant_of_eq_fields h rfl rfl rfl rfl rfl

theorem invariant_addEventToBack (m : StateMachine) (event : Event) (h : Invariant m) :
    Invariant (addEventToBack m event).2 := by
  rw [addEventToBack]
  split
  · exact h
  · split
    · exact h
    · exact invariant_of_eq_fields h rfl rfl rfl rfl rfl

theorem invariant_takeFinalEvent (m : StateMachine) (h : Invariant m) :
    Invariant (takeFinalEvent m).2 := by
  rw [takeFinalEvent]
  exact invariant_of_eq_fields h rfl rfl rfl rfl rfl

theorem invariant_processNextEvent (m : StateMachine) (h : Invariant m) :
    Invariant (processNextEvent m).2.1 := by
  rw [processNextEvent]
  split
  · exact h
  · split
    · exact h
    · rename_i event rest hqueue
      dsimp only
      have h1 : Invariant { m with eventQueue := rest } :=
        invariant_of_eq_fields h rfl rfl rfl rfl rfl
      split
      · exact h1
      · rename_i stateData hsd
        split
        · rw [executeInternalTransition_machine]
          exact h1
        · split
          · rename_i transitionData htd
            refine invariant_executeStateTransition h1 transitionData event ?_
            exact h1.targets_exist (m.currentState, stateData) (mem_of_lookup_eq_some hsd)
              (event.name, transitionData) (mem_of_lookup_eq_some htd)
          · split
            · rw [executeInternalTransition_machine]
              exact h1
            · split
              · rename_i transitionData htd
                refine invariant_executeStateTransition h1 transitionData event ?_
                exact h1.default_target_exists (m.currentState, stateData)
                  (mem_of_lookup_eq_some hsd) transitionData htd
              · exact h1

theorem invariant_init : Invariant StateMachine.init := by
  constructor
  · intro p hp
    simp [StateMachine.init] at hp
  · intro p hp
    simp [StateMachine.init] at hp
  · intro p hp
    simp [StateMachine.init] at hp
  · intro hne
    exact absurd rfl hne
  · intro hv
    cases hv
  · intro hc
    cases hc
  · left
    rfl
  · intro hc
    cases hc

theorem invariant_reachable {m : StateMachine} (h : Reachable m) : Invariant m := by
  induction h with
  | init_step => exact invariant_init
  | addState_step m stateName _ ih => exact invariant_addState m ih stateName
  | setStateEntryAction_step m stateName action _ ih =>
      exact invariant_setStateEntryAction m ih stateName action
  | setStateExitAction_step m stateName action _ ih =>
      exact invariant_setStateExitAction m ih stateName action
  | setInitialTransition_step m initialState action _ ih =>
      exact invariant_setInitialTransition m ih initialState action
  | addStateTransition_step m fromState trigger toState action guard _ ih =>
      exact invariant_addStateTransition m ih fromState trigger toState action guard
  | addInternalTransition_step m state trigger action guard _ ih =>
      exact invariant_addInternalTransition m ih state trigger action guard
  | setDefaultTransition_step m fromState toState action guard _ ih =>
      exact invariant_setDefaultTransition m ih fromState toState action guard
  | setDefaultInternalTransition_step m state action guard _ ih =>
      exact invariant_setDefaultInternalTransition m ih state action guard
  | validate_step m _ ih => exact invariant_validate m ih
  | start_step m event _ ih => exact invariant_start m event ih
  | stop_step m _ ih => exact invariant_stop m ih
  | addEventToFront_step m event _ ih => exact invariant_addEventToFront m event ih
  | addEventToBack_step m event _ ih => exact invariant_addEventToBack m event ih
  | processNextEvent_step m _ ih => exact invariant_processNextEvent m ih
  | takeFinalEvent_step m _ ih => exact invariant_takeFinalEvent m ih


/-! Soundness of the depth-first traversal with respect to the edge relation
it follows. -/

theorem traverseFold_sound (states : List (String × StateData)) (root : String) (f : Nat)
    (ih : ∀ (stateName : String) (reached : List String),
      Relation.ReflTransGen (transitionEdge states) root stateName →
      (∀ x ∈ reached, Relation.ReflTransGen (transitionEdge states) root x) →
      ∀ x ∈ traverseStates states f stateName reached,
        Relation.ReflTransGen (transitionEdge states) root x) :
    ∀ (ts : List (String × StateTransitionData)) (acc : List String),
      (∀ q ∈ ts, Relation.ReflTransGen (transitionEdge states) root q.2.state) →
      (∀ x ∈ acc, Relation.ReflTransGen (transitionEdge states) root x) →
      ∀ x ∈ ts.foldl (fun a item =>
          if a.contains item.2.state then a
          else traverseStates states f item.2.state a) acc,
        Relation.ReflTransGen (transitionEdge states) root x := by
  intro ts
  induction ts with
  | nil =>
    intro acc _ hacc x hx
    exact hacc x hx
  | cons q rest ihts =>
    intro acc hq hacc x hx
    rw [List.foldl_cons] at hx
    refine ihts _ (fun p hp => hq p (List.mem_cons_of_mem _ hp)) ?_ x hx
    intro y hy
    split at hy
    · exact hacc y hy
    · exact ih q.2.state acc (hq q (List.mem_cons_self _ _)) hacc y hy

theorem traverseStates_sound (states : List (String × StateData)) (root : String) :
    ∀ (fuel : Nat) (stateName : String) (reached : List String),
      Relation.ReflTransGen (transitionEdge states) root stateName →
      (∀ x ∈ reached, Relation.ReflTransGen (transitionEdge states) root x) →
      ∀ x ∈ traverseStates states fuel stateName reached,
        Relation.ReflTransGen (transitionEdge states) root x := by
  intro fuel
  induction fuel with
  | zero =>
    intro stateName reached _ hacc x hx
    exact hacc x hx
  | succ f ih =>
    intro stateName reached hname hacc x hx
    rw [traverseStates] at hx
    have hacc' : ∀ y ∈ insertReached reached stateName,
        Relation.ReflTransGen (transitionEdge states) root y := by
      intro y hy
      rw [insertReached] at hy
      split at hy
      · exact hacc y hy
      · rcases List.mem_append.mp hy with h1 | h1
        · exact hacc y h1
        · rcases List.mem_singleton.mp h1 with rfl
          exact hname
    cases hlk : List.lookup stateName states with
    | none =>
      rw [hlk] at hx
      exact hacc' x hx
    | some sd =>
      rw [hlk] at hx
      refine traverseFold_sound states root f ih sd.stateTransitions _ ?_ hacc' x hx
      intro q hq
      exact Relation.ReflTransGen.tail hname ⟨sd, hlk, q, hq, rfl⟩

/-! Facts extracted from a successful validation. -/

theorem validate_true_facts {m : StateMachine} (h : (validate m).1 = true) :
    m.started = false ∧ m.states.isEmpty = false ∧
    m.initialTransition.state.isEmpty = false ∧
    (m.states.map Prod.fst).all (fun s =>
      (traverseStates m.states (m.states.length + 1)
        m.initialTransition.state []).contains s) = true := by
  rw [validate] at h
  split at h
  · cases h
  · split at h
    · cases h
    · split at h
      · cases h
      · split at h
        · cases h
        · dsimp only at h
          split at h
          · rename_i hstarted hempty hinit _ hcheck
            refine ⟨?_, ?_, ?_, ?_⟩
            · simpa using hstarted
            · simpa using hempty
            · simpa using hinit
            · rw [Bool.and_eq_true] at hcheck
              exact hcheck.2
          · cases h


/-! Reachability of the concrete machines through the public API. -/

theorem mStep4_reachable : Reachable mStep4 :=
  Reachable.addStateTransition_step mStep3 "a" "go" "b" none none
    (Reachable.setInitialTransition_step mStep2 "a" none
      (Reachable.addState_step mStep1 "b"
        (Reachable.addState_step StateMachine.init "a" Reachable.init_step)))

theorem mStep6_reachable : Reachable mStep6 :=
  Reachable.start_step mStep5 { name := "Started" }
    (Reachable.validate_step mStep4 mStep4_reachable)

theorem mRunning_reachable : Reachable mRunning :=
  Reachable.addEventToBack_step mStep6 { name := "go" } mStep6_reachable

theorem mGuardRunning_reachable : Reachable mGuardRunning :=
  Reachable.addEventToBack_step mGuard6 { name := "go" }
    (Reachable.start_step mGuard5 { name := "Started" }
      (Reachable.validate_step mGuard4
        (Reachable.addStateTransition_step mStep3 "a" "go" "b" none (some blockingGuard)
          (Reachable.setInitialTransition_step mStep2 "a" none
            (Reachable.addState_step mStep1 "b"
              (Reachable.addState_step StateMachine.init "a" Reachable.init_step))))))

/-! Claim C1. -/

/-- C1 (amended): `validate()` succeeds only if every declared state is
reachable from the initial state by the depth-first traversal that follows
the targets of `state_transitions` entries only; the targets of default state
transitions are not followed, so a machine in which some state is reachable
only through a default state transition fails validation. -/
theorem validate_true_reachable (m : StateMachine) (s : String) (sd : StateData)
    (hmem : (s, sd) ∈ m.states) (h : (validate m).1 = true) :
    Relation.ReflTransGen (transitionEdge m.states) m.initialTransition.state s := by
  obtain ⟨-, -, -, hall⟩ := validate_true_facts h
  have hs : s ∈ m.states.map Prod.fst := List.mem_map.mpr ⟨(s, sd), hmem, rfl⟩
  have hcontains := List.all_eq_true.mp hall s hs
  have hmem2 : s ∈ traverseStates m.states (m.states.length + 1)
      m.initialTransition.state [] := by
    simpa using hcontains
  refine traverseStates_sound m.states m.initialTransition.state _ _ _
    Relation.ReflTransGen.refl ?_ s hmem2
  intro x hx
  cases hx

/-- Witness: validate_true_reachable applied to the concrete machine mLinear
and its declared state "b". -/
theorem validate_true_reachable_witness :
    (validate mLinear).1 = true ∧
    Relation.ReflTransGen (transitionEdge mLinear.states)
      mLinear.initialTransition.state "b" :=
  ⟨rfl, validate_true_reachable mLinear "b" StateData.empty
    (List.Mem.tail _ (List.Mem.head _)) rfl⟩

/-- Counterexample to C1 as stated: in mDefaultOnly both declared states are
reachable from the initial state "a" when default state transitions count as
edges (the specification wording), yet `validate()` fails. -/
theorem validate_default_reachability_refuted :
    (validate mDefaultOnly).1 = false ∧
    (validate mDefaultOnly).2.validationStatus = ValidationStatus.Invalid ∧
    mDefaultOnly.states.map Prod.fst = ["a", "b"] ∧
    mDefaultOnly.initialTransition.state = "a" ∧
    Relation.ReflTransGen (specEdgeWithDefaults mDefaultOnly.states) "a" "a" ∧
    Relation.ReflTransGen (specEdgeWithDefaults mDefaultOnly.states) "a" "b" := by
  refine ⟨rfl, rfl, rfl, rfl, Relation.ReflTransGen.refl,
    Relation.ReflTransGen.single ?_⟩
  right
  exact ⟨sdDefaultToB, rfl, { state := "b", guard := none, action := none }, rfl, rfl⟩

/-! Claim C2. -/

/-- C2 (amended): when `validate()` returns true the status becomes Valid;
when it returns false on a stopped machine the status becomes Invalid; when
the machine is started `validate()` returns false and leaves the whole
machine, including its status, unchanged; and validation never modifies
anything except the validation status. -/
theorem validate_status_spec (m : StateMachine) :
    ((validate m).1 = true →
      (validate m).2.validationStatus = ValidationStatus.Valid) ∧
    ((validate m).1 = false → m.started = false →
      (validate m).2.validationStatus = ValidationStatus.Invalid) ∧
    (m.started = true → (validate m).1 = false ∧ (validate m).2 = m) ∧
    (validate m).2.states = m.states ∧
    (validate m).2.initialTransition = m.initialTransition ∧
    (validate m).2.started = m.started ∧
    (validate m).2.currentState = m.currentState ∧
    (validate m).2.eventQueue = m.eventQueue ∧
    (validate m).2.finalEvent = m.finalEvent := by
  rw [validate]
  split
  · rename_i hstarted
    exact ⟨(fun hc => by cases hc), (fun _ hc => by simp [hstarted] at hc),
      (fun _ => ⟨rfl, rfl⟩), rfl, rfl, rfl, rfl, rfl, rfl⟩
  · rename_i hnstarted
    split
    · exact ⟨(fun hc => by cases hc), (fun _ _ => rfl),
        (fun hc => absurd hc hnstarted), rfl, rfl, rfl, rfl, rfl, rfl⟩
    · split
      · exact ⟨(fun hc => by cases hc), (fun _ _ => rfl),
          (fun hc => absurd hc hnstarted), rfl, rfl, rfl, rfl, rfl, rfl⟩
      · split
        · exact ⟨(fun hc => by cases hc), (fun _ _ => rfl),
            (fun hc => absurd hc hnstarted), rfl, rfl, rfl, rfl, rfl, rfl⟩
        · dsimp only
          split
          · exact ⟨(fun _ => rfl), (fun hc => by cases hc),
              (fun hc => absurd hc hnstarted), rfl, rfl, rfl, rfl, rfl, rfl⟩
          · exact ⟨(fun hc => by cases hc), (fun _ _ => rfl),
              (fun hc => absurd hc hnstarted), rfl, rfl, rfl, rfl, rfl, rfl⟩

/-- Witness: validate_status_spec applied to mStep4 (validation succeeds and
the status becomes Valid) and to mDefaultOnly (validation fails on a stopped
machine and the status becomes Invalid). -/
theorem validate_status_spec_witness :
    (validate mStep4).2.validationStatus = ValidationStatus.Valid ∧
    (validate mDefaultOnly).2.validationStatus = ValidationStatus.Invalid :=
  ⟨(validate_status_spec mStep4).1 rfl,
    (validate_status_spec mDefaultOnly).2.1 rfl rfl⟩

/-- Counterexample to C2 as stated: mStep6 is a started machine (reached
through the public API) whose status is Valid; `validate()` returns false on
it, but the status afterwards is still Valid, not Invalid. -/
theorem validate_started_status_refuted :
    Reachable mStep6 ∧ mStep6.started = true ∧ (validate mStep6).1 = false ∧
    (validate mStep6).2.validationStatus = ValidationStatus.Valid :=
  ⟨mStep6_reachable, rfl, rfl, rfl⟩

/-! Claim C10. -/

/-- C10 (amended): on every machine produced by public operations the current
state is either empty or resolves to a declared state record; when the
machine is started (the only situation in which event processing runs) the
lookup of the current state succeeds, and when the validation status is Valid
(the precondition of `start`) the lookup of the initial state succeeds, so
the defensive invalid-state branches of event processing and of the initial
transition are unreachable.  The defensive branch of the query
`finalStateReached` is reachable: it is taken whenever the current state is
empty, in particular on any configured machine that has never been started. -/
theorem current_state_invariant (m : StateMachine) (hr : Reachable m) :
    (m.currentState = "" ∨ (List.lookup m.currentState m.states).isSome = true) ∧
    (m.started = true → (List.lookup m.currentState m.states).isSome = true) ∧
    (m.validationStatus = ValidationStatus.Valid →
      (List.lookup m.initialTransition.state m.states).isSome = true) := by
  have h := invariant_reachable hr
  exact ⟨h.current_ok, h.started_current,
    fun hv => h.initial_exists (h.valid_initial hv)⟩

/-- Witness: current_state_invariant applied to the started machine mStep6.
-/
theorem current_state_invariant_witness :
    (List.lookup mStep6.currentState mStep6.states).isSome = true :=
  (current_state_invariant mStep6 mStep6_reachable).2.1 rfl

/-- Counterexample to C10 as stated: mStep1 is produced by public operations
(one addState call), its current state is empty and resolves to no state
record, and the query finalStateReached does execute its defensive
invalid-current-state branch on it, returning false.  The defensive branches
are therefore not all unreachable. -/
theorem finalStateReached_defensive_refuted :
    Reachable mStep1 ∧ mStep1.currentState = "" ∧
    List.lookup mStep1.currentState mStep1.states = none ∧
    finalStateReached mStep1 = false :=
  ⟨Reachable.addState_step StateMachine.init "a" Reachable.init_step, rfl, rfl, rfl⟩


/-! Claim C3. -/

/-- C3: on every machine reachable through the public API,
setInitialTransition succeeds exactly when the named state exists, the
initial transition is not yet set, and the machine is not started (a started
machine always has its initial transition set, so the call is refused); a
failed call leaves the machine unchanged. -/
theorem setInitialTransition_spec (m : StateMachine) (hr : Reachable m)
    (initialState : String) (action : Option String) :
    ((setInitialTransition m initialState action).1 = true ↔
      ((List.lookup initialState m.states).isSome = true ∧
        m.initialTransition.state = "" ∧ m.started = false)) ∧
    ((setInitialTransition m initialState action).1 = false →
      (setInitialTransition m initialState action).2 = m) := by
  have hinv := invariant_reachable hr
  constructor
  · constructor
    · intro hsucc
      rw [setInitialTransition] at hsucc
      split at hsucc
      · cases hsucc
      · split at hsucc
        · cases hsucc
        · rename_i hnotset hsome
          have hempty : m.initialTransition.state = "" := by
            by_cases hc : m.initialTransition.state.isEmpty = true
            · exact (String.isEmpty_iff _).mp hc
            · exact absurd (by simpa using hc) hnotset
          have hstarted : m.started = false := by
            cases hst : m.started
            · rfl
            · exact absurd hempty (hinv.started_initial hst)
          exact ⟨isSome_of_not_isNone hsome, hempty, hstarted⟩
    · rintro ⟨hsome, hempty, -⟩
      have hnone : ¬(List.lookup initialState m.states).isNone = true := by
        intro hc
        rw [Option.isNone_iff_eq_none] at hc
        rw [hc] at hsome
        cases hsome
      rw [setInitialTransition, hempty]
      rw [if_neg (by decide), if_neg hnone]
  · rw [setInitialTransition]
    split
    · exact fun _ => rfl
    · split
      · exact fun _ => rfl
      · intro hc
        cases hc

/-- Witness: setInitialTransition_spec applied to the configured machine
mStep2 with its declared state "a". -/
theorem setInitialTransition_spec_witness :
    (setInitialTransition mStep2 "a" none).1 = true :=
  (setInitialTransition_spec mStep2
    (Reachable.addState_step mStep1 "b"
      (Reachable.addState_step StateMachine.init "a" Reachable.init_step))
    "a" none).1.mpr ⟨rfl, rfl, rfl⟩

/-! Claim C4. -/

theorem processNextEvent_dispatch (m : StateMachine) (hs : m.started = true)
    (event : Event) (rest : List Event) (hq : m.eventQueue = event :: rest)
    (sd : StateData) (hsd : List.lookup m.currentState m.states = some sd) :
    processNextEvent m =
      (true,
        match resolveEvent sd event.name with
        | Resolution.internalFired td =>
            executeInternalTransition { m with eventQueue := rest } td event
        | Resolution.stateFired td =>
            executeStateTransition { m with eventQueue := rest } td event
        | Resolution.dropped => ({ m with eventQueue := rest }, [])) := by
  rw [processNextEvent, hs, hq]
  rw [if_neg (by decide)]
  dsimp only
  rw [hsd, resolveEvent]
  dsimp only
  cases h1 : List.lookup event.name sd.internalTransitions with
  | some td => rfl
  | none =>
    cases h2 : List.lookup event.name sd.stateTransitions with
    | some td => rfl
    | none =>
      cases h3 : sd.defaultInternalTransition with
      | some td => rfl
      | none =>
        cases h4 : sd.defaultStateTransition with
        | some td => rfl
        | none => rfl

/-- C4: a started machine (reached through the public API) with a non-empty
queue dequeues exactly one event, resolves it against the current state
record with precedence specific internal, then specific state, then default
internal, then default state, then drop, and processNextEvent returns true in
every case including the drop case. -/
theorem processNextEvent_precedence (m : StateMachine) (hr : Reachable m)
    (hs : m.started = true) (event : Event) (rest : List Event)
    (hq : m.eventQueue = event :: rest) :
    ∃ sd, List.lookup m.currentState m.states = some sd ∧
      processNextEvent m =
        (true,
          match resolveEvent sd event.name with
          | Resolution.internalFired td =>
              executeInternalTransition { m with eventQueue := rest } td event
          | Resolution.stateFired td =>
              executeStateTransition { m with eventQueue := rest } td event
          | Resolution.dropped => ({ m with eventQueue := rest }, [])) := by
  rcases Option.isSome_iff_exists.mp
    ((invariant_reachable hr).started_current hs) with ⟨sd, hsd⟩
  exact ⟨sd, hsd, processNextEvent_dispatch m hs event rest hq sd hsd⟩

/-- Witness: processNextEvent_precedence applied to the running machine
mRunning; the pending "go" event resolves to a state transition and
processNextEvent returns true. -/
theorem processNextEvent_precedence_witness :
    (processNextEvent mRunning).1 = true := by
  obtain ⟨sd, -, heq⟩ := processNextEvent_precedence mRunning mRunning_reachable rfl
    { name := "go" } [] rfl
  rw [heq]


/-! Claim C5. -/

/-- C5: a state transition whose guard allows it produces exactly the trace
exit action of the source state (if set) with (event, from, to), then the
transition action (if set) with (event, from, to), then the entry action of
the target (if set) with (event, to, from); afterwards the current state is
the target, the state table is unchanged, and when the target is a final
state the event is stored as the final event and the machine auto-stops. -/
theorem executeStateTransition_order (m : StateMachine)
    (transitionData : StateTransitionData) (event : Event) (csd nsd : StateData)
    (hguard : stateGuardAllows transitionData.guard event m.currentState
      transitionData.state = true)
    (hcur : List.lookup m.currentState m.states = some csd)
    (hnext : List.lookup transitionData.state m.states = some nsd) :
    (executeStateTransition m transitionData event).2 =
      obsOfSlot csd.exitAction
        (fun label => Obs.exitAction label event m.currentState transitionData.state) ++
      obsOfSlot transitionData.action
        (fun label => Obs.transitionAction label event m.currentState transitionData.state) ++
      obsOfSlot nsd.entryAction
        (fun label => Obs.entryAction label event transitionData.state m.currentState) ∧
    (executeStateTransition m transitionData event).1.currentState =
      transitionData.state ∧
    (executeStateTransition m transitionData event).1.states = m.states ∧
    (isFinalState nsd = true →
      (executeStateTransition m transitionData event).1.finalEvent = some event ∧
      (executeStateTransition m transitionData event).1.started = false) ∧
    (isFinalState nsd = false →
      (executeStateTransition m transitionData event).1.finalEvent = m.finalEvent ∧
      (executeStateTransition m transitionData event).1.started = m.started) := by
  rw [executeStateTransition, hguard]
  rw [if_neg (by decide)]
  rw [hcur]
  dsimp only
  rw [getStateOrInsert_of_lookup hnext]
  dsimp only
  by_cases hf : isFinalState nsd = true
  · rw [if_pos hf]
    rw [stopInternal]
    dsimp only
    split
    · rename_i hns
      refine ⟨rfl, rfl, rfl, (fun _ => ⟨rfl, by simpa using hns⟩),
        (fun hnf => by rw [hf] at hnf; cases hnf)⟩
    · refine ⟨rfl, rfl, rfl, (fun _ => ⟨rfl, rfl⟩),
        (fun hnf => by rw [hf] at hnf; cases hnf)⟩
  · rw [if_neg hf]
    refine ⟨rfl, rfl, rfl, (fun hc => absurd hc hf), (fun _ => ⟨rfl, rfl⟩)⟩

/-- Witness: executeStateTransition_order applied to the started machine
mStep6 and its "go" transition; the machine commits to state "b". -/
theorem executeStateTransition_order_witness :
    (executeStateTransition mStep6 { state := "b", guard := none, action := none }
      { name := "go" }).1.currentState = "b" :=
  (executeStateTransition_order mStep6 { state := "b", guard := none, action := none }
    { name := "go" } sdGoToB StateData.empty rfl rfl rfl).2.1

/-! Claim C9. -/

theorem executeStateTransition_guard_false (m : StateMachine)
    (transitionData : StateTransitionData) (event : Event)
    (g : StateTransitionGuardCondition) (hg : transitionData.guard = some g)
    (hfalse : g event m.currentState transitionData.state = false) :
    executeStateTransition m transitionData event = (m, []) := by
  have hallow : stateGuardAllows transitionData.guard event m.currentState
      transitionData.state = false := by
    rw [hg]
    exact hfalse
  rw [executeStateTransition, hallow]
  rw [if_pos (by decide)]

theorem executeInternalTransition_guard_false (m : StateMachine)
    (transitionData : InternalTransitionData) (event : Event)
    (g : InternalTransitionGuardCondition) (hg : transitionData.guard = some g)
    (hfalse : g event m.currentState = false) :
    executeInternalTransition m transitionData event = (m, []) := by
  have hallow : internalGuardAllows transitionData.guard event m.currentState = false := by
    rw [hg]
    exact hfalse
  rw [executeInternalTransition, hallow]
  rw [if_pos (by decide)]

/-- C9: when the dequeued event resolves to a transition (state or internal)
whose guard returns false, processNextEvent returns true and the resulting
machine differs from the original only in that the queue advanced by exactly
one event: the current state, states, started flag and final event are
unchanged and no callback observation is emitted. -/
theorem guard_false_noop (m : StateMachine) (hs : m.started = true)
    (event : Event) (rest : List Event) (hq : m.eventQueue = event :: rest)
    (sd : StateData) (hsd : List.lookup m.currentState m.states = some sd) :
    (∀ td g, resolveEvent sd event.name = Resolution.stateFired td →
      td.guard = some g → g event m.currentState td.state = false →
      processNextEvent m = (true, { m with eventQueue := rest }, [])) ∧
    (∀ td g, resolveEvent sd event.name = Resolution.internalFired td →
      td.guard = some g → g event m.currentState = false →
      processNextEvent m = (true, { m with eventQueue := rest }, [])) := by
  constructor
  · intro td g hres hg hfalse
    rw [processNextEvent_dispatch m hs event rest hq sd hsd, hres]
    dsimp only
    rw [executeStateTransition_guard_false { m with eventQueue := rest } td event g hg hfalse]
  · intro td g hres hg hfalse
    rw [processNextEvent_dispatch m hs event rest hq sd hsd, hres]
    dsimp only
    rw [executeInternalTransition_guard_false { m with eventQueue := rest } td event g hg hfalse]

/-- Witness: guard_false_noop applied to the running guarded machine
mGuardRunning, whose "go" transition carries a guard that returns false. -/
theorem guard_false_noop_witness :
    processNextEvent mGuardRunning =
      (true, { mGuardRunning with eventQueue := [] }, []) :=
  (guard_false_noop mGuardRunning rfl { name := "go" } [] rfl
    ({ StateData.empty with stateTransitions :=
      [("go", { state := "b", guard := some blockingGuard, action := none })] }) rfl).1
    { state := "b", guard := some blockingGuard, action := none } blockingGuard rfl rfl rfl


theorem bool_eq_false_of_ne_true {b : Bool} (h : ¬b = true) : b = false := by
  cases b
  · rfl
  · exact absurd rfl h

/-! Claim C6. -/

/-- C6: start succeeds exactly when the status is Valid, the machine is not
started, and the trigger event has a non-empty name; a failed start leaves
the machine unchanged; a successful start clears the event queue and runs the
initial transition: the trace is the initial action (if set) followed by the
entry action of the initial state (if set), the current state becomes the
initial state, and when the initial state is final the machine ends
not-started with the trigger event stored as the final event (so
takeFinalEvent yields it), otherwise it ends started with no final event. -/
theorem start_spec (m : StateMachine) (event : Event) (hr : Reachable m) :
    ((start m event).1 = true ↔
      (m.validationStatus = ValidationStatus.Valid ∧ m.started = false ∧
        event.name ≠ "")) ∧
    ((start m event).1 = false → (start m event).2.1 = m) ∧
    ((start m event).1 = true →
      ∃ sd, List.lookup m.initialTransition.state m.states = some sd ∧
        (start m event).2.1.currentState = m.initialTransition.state ∧
        (start m event).2.1.eventQueue = [] ∧
        (start m event).2.2 =
          obsOfSlot m.initialTransition.action
            (fun label => Obs.initialAction label event m.initialTransition.state) ++
          obsOfSlot sd.entryAction
            (fun label => Obs.entryAction label event m.initialTransition.state "") ∧
        (isFinalState sd = true →
          (start m event).2.1.started = false ∧
          (start m event).2.1.finalEvent = some event ∧
          (takeFinalEvent (start m event).2.1).1 = some event) ∧
        (isFinalState sd = false →
          (start m event).2.1.started = true ∧
          (start m event).2.1.finalEvent = none)) := by
  have hinv := invariant_reachable hr
  by_cases hn : event.name.isEmpty = true
  · rw [start, if_pos hn]
    refine ⟨⟨(fun hc => by cases hc), ?_⟩, (fun _ => rfl), (fun hc => by cases hc)⟩
    rintro ⟨-, -, hne⟩
    exact absurd ((String.isEmpty_iff _).mp hn) hne
  · by_cases hst : m.started = true
    · rw [start, if_neg hn, if_pos hst]
      refine ⟨⟨(fun hc => by cases hc), ?_⟩, (fun _ => rfl), (fun hc => by cases hc)⟩
      rintro ⟨-, hns, -⟩
      rw [hst] at hns
      cases hns
    · by_cases hv : m.validationStatus = ValidationStatus.Valid
      · rw [start, if_neg hn, if_neg hst, if_pos hv]
        dsimp only
        have hini := hinv.valid_initial hv
        obtain ⟨sd, hsd⟩ := Option.isSome_iff_exists.mp (hinv.initial_exists hini)
        rw [executeInitialTransition]
        dsimp only
        rw [hsd]
        dsimp only
        refine ⟨⟨(fun _ => ⟨hv, bool_eq_false_of_ne_true hst,
          ne_empty_of_not_isEmpty hn⟩), (fun _ => rfl)⟩,
          (fun hc => by cases hc), ?_⟩
        intro _
        refine ⟨sd, rfl, ?_⟩
        by_cases hf : isFinalState sd = true
        · rw [if_pos hf, stopInternal]
          rw [if_neg (fun hc => by simp at hc)]
          dsimp only
          exact ⟨rfl, rfl, rfl, (fun _ => ⟨rfl, rfl, rfl⟩),
            (fun hnf => by rw [hf] at hnf; cases hnf)⟩
        · rw [if_neg hf]
          exact ⟨rfl, rfl, rfl, (fun hc => absurd hc hf), (fun _ => ⟨rfl, rfl⟩)⟩
      · rw [start, if_neg hn, if_neg hst, if_neg hv]
        refine ⟨⟨(fun hc => by cases hc), ?_⟩, (fun _ => rfl), (fun hc => by cases hc)⟩
        rintro ⟨hvv, -, -⟩
        exact absurd hvv hv

/-- Witness: start_spec applied to the validated machine mStep5 with the
default startup event. -/
theorem start_spec_witness :
    (start mStep5 { name := "Started" }).1 = true :=
  (start_spec mStep5 { name := "Started" }
    (Reachable.validate_step mStep4 mStep4_reachable)).1.mpr
    ⟨rfl, rfl, (by decide)⟩

/-! Claim C7. -/

/-- C7: every configuration operation (addState, setStateEntryAction,
setStateExitAction, addStateTransition, addInternalTransition and both
setDefaultTransition overloads) that returns false leaves the machine
completely unchanged. -/
theorem config_failure_frame (m : StateMachine) (stateName trigger toState : String)
    (label : Option String) (gS : Option StateTransitionGuardCondition)
    (gI : Option InternalTransitionGuardCondition) :
    ((addState m stateName).1 = false → (addState m stateName).2 = m) ∧
    ((setStateEntryAction m stateName label).1 = false →
      (setStateEntryAction m stateName label).2 = m) ∧
    ((setStateExitAction m stateName label).1 = false →
      (setStateExitAction m stateName label).2 = m) ∧
    ((addStateTransition m stateName trigger toState label gS).1 = false →
      (addStateTransition m stateName trigger toState label gS).2 = m) ∧
    ((addInternalTransition m stateName trigger label gI).1 = false →
      (addInternalTransition m stateName trigger label gI).2 = m) ∧
    ((setDefaultTransition m stateName toState label gS).1 = false →
      (setDefaultTransition m stateName toState label gS).2 = m) ∧
    ((setDefaultInternalTransition m stateName label gI).1 = false →
      (setDefaultInternalTransition m stateName label gI).2 = m) := by
  refine ⟨?_, ?_, ?_, ?_, ?_, ?_, ?_⟩
  · rw [addState]
    split
    · exact fun _ => rfl
    · split
      · exact fun _ => rfl
      · split
        · exact fun _ => rfl
        · intro hc; cases hc
  · rw [setStateEntryAction]
    split
    · exact fun _ => rfl
    · split
      · exact fun _ => rfl
      · split
        · exact fun _ => rfl
        · split
          · exact fun _ => rfl
          · intro hc; cases hc
  · rw [setStateExitAction]
    split
    · exact fun _ => rfl
    · split
      · exact fun _ => rfl
      · split
        · exact fun _ => rfl
        · split
          · exact fun _ => rfl
          · intro hc; cases hc
  · rw [addStateTransition]
    split
    · exact fun _ => rfl
    · split
      · exact fun _ => rfl
      · split
        · exact fun _ => rfl
        · split
          · exact fun _ => rfl
          · split
            · exact fun _ => rfl
            · intro hc; cases hc
  · rw [addInternalTransition]
    split
    · exact fun _ => rfl
    · split
      · exact fun _ => rfl
      · split
        · exact fun _ => rfl
        · split
          · exact fun _ => rfl
          · split
            · exact fun _ => rfl
            · intro hc; cases hc
  · rw [setDefaultTransition]
    split
    · exact fun _ => rfl
    · split
      · exact fun _ => rfl
      · split
        · exact fun _ => rfl
        · split
          · exact fun _ => rfl
          · intro hc; cases hc
  · rw [setDefaultInternalTransition]
    split
    · exact fun _ => rfl
    · split
      · exact fun _ => rfl
      · split
        · exact fun _ => rfl
        · split
          · exact fun _ => rfl
          · intro hc; cases hc

/-- Witness: config_failure_frame applied to mStep1, on which adding the
duplicate state "a" fails and changes nothing. -/
theorem config_failure_frame_witness :
    (addState mStep1 "a").1 = false ∧ (addState mStep1 "a").2 = mStep1 :=
  ⟨rfl, (config_failure_frame mStep1 "a" "go" "b" none none none).1 rfl⟩

/-! Claim C8. -/

/-- C8: every successful configuration mutation (addState,
setStateEntryAction, setStateExitAction, setInitialTransition,
addStateTransition, addInternalTransition and both setDefaultTransition
overloads) sets the validation status to Unvalidated, whatever it was
before. -/
theorem config_mutation_unvalidated (m : StateMachine)
    (stateName trigger toState : String) (label : Option String)
    (gS : Option StateTransitionGuardCondition)
    (gI : Option InternalTransitionGuardCondition) :
    ((addState m stateName).1 = true →
      (addState m stateName).2.validationStatus = ValidationStatus.Unvalidated) ∧
    ((setStateEntryAction m stateName label).1 = true →
      (setStateEntryAction m stateName label).2.validationStatus =
        ValidationStatus.Unvalidated) ∧
    ((setStateExitAction m stateName label).1 = true →
      (setStateExitAction m stateName label).2.validationStatus =
        ValidationStatus.Unvalidated) ∧
    ((setInitialTransition m stateName label).1 = true →
      (setInitialTransition m stateName label).2.validationStatus =
        ValidationStatus.Unvalidated) ∧
    ((addStateTransition m stateName trigger toState label gS).1 = true →
      (addStateTransition m stateName trigger toState label gS).2.validationStatus =
        ValidationStatus.Unvalidated) ∧
    ((addInternalTransition m stateName trigger label gI).1 = true →
      (addInternalTransition m stateName trigger label gI).2.validationStatus =
        ValidationStatus.Unvalidated) ∧
    ((setDefaultTransition m stateName toState label gS).1 = true →
      (setDefaultTransition m stateName toState label gS).2.validationStatus =
        ValidationStatus.Unvalidated) ∧
    ((setDefaultInternalTransition m stateName label gI).1 = true →
      (setDefaultInternalTransition m stateName label gI).2.validationStatus =
        ValidationStatus.Unvalidated) := by
  refine ⟨?_, ?_, ?_, ?_, ?_, ?_, ?_, ?_⟩
  · rw [addState]
    split
    · intro hc; cases hc
    · split
      · intro hc; cases hc
      · split
        · intro hc; cases hc
        · exact fun _ => rfl
  · rw [setStateEntryAction]
    split
    · intro hc; cases hc
    · split
      · intro hc; cases hc
      · split
        · intro hc; cases hc
        · split
          · intro hc; cases hc
          · exact fun _ => rfl
  · rw [setStateExitAction]
    split
    · intro hc; cases hc
    · split
      · intro hc; cases hc
      · split
        · intro hc; cases hc
        · split
          · intro hc; cases hc
          · exact fun _ => rfl
  · rw [setInitialTransition]
    split
    · intro hc; cases hc
    · split
      · intro hc; cases hc
      · exact fun _ => rfl
  · rw [addStateTransition]
    split
    · intro hc; cases hc
    · split
      · intro hc; cases hc
      · split
        · intro hc; cases hc
        · split
          · intro hc; cases hc
          · split
            · intro hc; cases hc
            · exact fun _ => rfl
  · rw [addInternalTransition]
    split
    · intro hc; cases hc
    · split
      · intro hc; cases hc
      · split
        · intro hc; cases hc
        · split
          · intro hc; cases hc
          · split
            · intro hc; cases hc
            · exact fun _ => rfl
  · rw [setDefaultTransition]
    split
    · intro hc; cases hc
    · split
      · intro hc; cases hc
      · split
        · intro hc; cases hc
        · split
          · intro hc; cases hc
          · exact fun _ => rfl
  · rw [setDefaultInternalTransition]
    split
    · intro hc; cases hc
    · split
      · intro hc; cases hc
      · split
        · intro hc; cases hc
        · split
          · intro hc; cases hc
          · exact fun _ => rfl

/-- Witness: config_mutation_unvalidated applied to the validated machine
mStep5, on which setting an entry action for state "a" succeeds and resets
the Valid status to Unvalidated. -/
theorem config_mutation_unvalidated_witness :
    mStep5.validationStatus = ValidationStatus.Valid ∧
    (setStateEntryAction mStep5 "a" (some "enterA")).1 = true ∧
    (setStateEntryAction mStep5 "a" (some "enterA")).2.validationStatus =
      ValidationStatus.Unvalidated :=
  ⟨rfl, rfl,
    (config_mutation_unvalidated mStep5 "a" "go" "b" (some "enterA") none none).2.1 rfl⟩

end CppStateMachineFramework
